import Mathlib

/-!
# LocalTimelineRandomizerBase: end-of-data, end-of-sweep and checkpoint lookup

A shallow embedding of the inline member functions of
`Source/Readers/ReaderLib/LocalTimelineRandomizerBase.h`:

* `IsEndReached`  (lines 60-68),
* `IsEndOfSweep`  (lines 72-77),
* `ValueFrom`     (lines 79-85).

Machine integers are natural numbers; `size_t` is 64 bits wide and the
places where the C++ arithmetic narrows or wraps are written out with an
explicit modulus.  A division or modulo by zero (undefined in C++) is the
result `none`.
-/

namespace CNTK

/-! ## Machine integers -/

/-- Number of values of `size_t` (unsigned 64-bit). -/
def SIZE_T_MOD : Nat := 2 ^ 64

/-- The cast `(int)x` of a `size_t` value, `int` being 32 bits wide: the low
32 bits of `x` read in two's complement (the result every compiler the reader
library builds with gives for a value that does not fit). -/
def castToInt (x : Nat) : Int :=
  if x % 2 ^ 32 < 2 ^ 31 then ((x % 2 ^ 32 : Nat) : Int)
  else ((x % 2 ^ 32 : Nat) : Int) - 2 ^ 32

/-- The conversion of an `int` operand to `size_t` that the usual arithmetic
conversions apply when the other operand is a `size_t`: reduction modulo
`2^64`. -/
def intToSizeT (i : Int) : Nat :=
  (i % (2 ^ 64 : Int)).toNat

/-- The conversion of a `bool` to `int`. -/
def boolToInt (b : Bool) : Int :=
  if b then 1 else 0

/-! ## Data model -/

/-- The fields of `EpochConfiguration` that the header reads.  The structure
is declared in another header; the four fields are `size_t`. -/
structure EpochConfiguration where
  m_numberOfWorkers : Nat
  m_workerRank : Nat
  m_totalEpochSizeInSamples : Nat
  m_totalEpochSizeInSweeps : Nat
deriving DecidableEq, Repr

/-- A sequence descriptor.  The header compares `m_indexInChunk`, `m_chunkId`
and `m_numberOfSamples`; whatever else the declaration of `SequenceInfo`
carries is the component `m_key` of an arbitrary type `κ`. -/
structure SequenceInfo (κ : Type) where
  m_indexInChunk : Nat
  m_numberOfSamples : Nat
  m_chunkId : Nat
  m_key : κ
deriving DecidableEq, Repr

/-- The checkpoint map `std::map<std::wstring, size_t>`: an association list
with pairwise distinct keys. -/
abbrev CheckpointState : Type := AList (fun _ : String => Nat)

/-- The window of sequences that are currently processed (lines 89-96); `χ` is
the type of a loaded chunk. -/
structure SequenceWindow (κ χ : Type) where
  m_dataChunks : AList (fun _ : Nat => χ)
  m_sequences : List (SequenceInfo κ)
  m_sequencePosition : Nat

/-- The data members of `LocalTimelineRandomizerBase` (lines 116-135). -/
structure LocalTimelineRandomizerBase (κ χ : Type) where
  m_config : EpochConfiguration
  m_window : SequenceWindow κ χ
  m_sequenceBuffer : List (SequenceInfo κ)
  m_chunkBuffer : AList (fun _ : Nat => χ)
  m_currentState : CheckpointState
  m_sweepIndex : Nat
  m_numberOfSamplesSeenSoFar : Nat

/-- Line 66: `(int)m_totalEpochSizeInSamples % m_numberOfWorkers > m_workerRank`
stored in an `int`.  The cast binds tighter than `%`, and the `int` is converted
to `size_t` for the modulo. -/
def shouldAddOneSample (c : EpochConfiguration) : Int :=
  boolToInt (decide
    (intToSizeT (castToInt c.m_totalEpochSizeInSamples) % c.m_numberOfWorkers > c.m_workerRank))

/-- Line 67, right-hand side of `>=`: the local sample limit, in `size_t`
arithmetic. -/
def localSampleLimit (c : EpochConfiguration) : Nat :=
  (c.m_totalEpochSizeInSamples / c.m_numberOfWorkers + intToSizeT (shouldAddOneSample c))
    % SIZE_T_MOD

/-- `IsEndReached` (lines 60-68).  `g_infinity` is the constant of that name,
declared outside this header.  The result is `none` when the function would
divide by a worker count of zero. -/
def IsEndReached {κ χ : Type} (g_infinity : Nat) (self : LocalTimelineRandomizerBase κ χ) :
    Option Bool :=
  if self.m_config.m_totalEpochSizeInSweeps ≠ g_infinity then
    some (decide (self.m_config.m_totalEpochSizeInSweeps = self.m_sweepIndex))
  else if self.m_config.m_numberOfWorkers = 0 then
    none
  else
    some (decide (self.m_numberOfSamplesSeenSoFar ≥ localSampleLimit self.m_config))

/-- `IsEndOfSweep` (lines 72-77).  `s_endOfSweep` is the static member of that
name, defined outside this header. -/
def IsEndOfSweep {κ : Type} (s_endOfSweep sequence : SequenceInfo κ) : Bool :=
  decide (sequence.m_indexInChunk = s_endOfSweep.m_indexInChunk) &&
    decide (sequence.m_chunkId = s_endOfSweep.m_chunkId) &&
    decide (sequence.m_numberOfSamples = s_endOfSweep.m_numberOfSamples)

/-- The largest `size_t`, used as the infinity constant in the examples. -/
def SIZE_MAX : Nat := 2 ^ 64 - 1

/-- An empty window. -/
def emptyWindow : SequenceWindow Unit Unit :=
  ⟨∅, [], 0⟩

/-- An object with the given configuration and counters and nothing loaded. -/
def mkBase (c : EpochConfiguration) (sweepIndex samplesSeen : Nat) :
    LocalTimelineRandomizerBase Unit Unit :=
  ⟨c, emptyWindow, [], ∅, ∅, sweepIndex, samplesSeen⟩

/-- The values of samples-seen-so-far at which `IsEndReached` answers `true`,
everything else in `self` kept. -/
def endReachedAt {κ χ : Type} (g_infinity : Nat) (self : LocalTimelineRandomizerBase κ χ) :
    Set Nat :=
  {n | IsEndReached g_infinity { self with m_numberOfSamplesSeenSoFar := n } = some true}

/-! ## Arithmetic of the narrowing cast -/

theorem intToSizeT_shouldAddOneSample (c : EpochConfiguration) :
    intToSizeT (shouldAddOneSample c) =
      if intToSizeT (castToInt c.m_totalEpochSizeInSamples) % c.m_numberOfWorkers > c.m_workerRank
      then 1 else 0 := by
  have h1 : intToSizeT 1 = 1 := by unfold intToSizeT; omega
  have h0 : intToSizeT 0 = 0 := by unfold intToSizeT; omega
  by_cases h :
      intToSizeT (castToInt c.m_totalEpochSizeInSamples) % c.m_numberOfWorkers > c.m_workerRank
  · rw [if_pos h]
    simp only [shouldAddOneSample, boolToInt, h, decide_True, if_true]
    exact h1
  · rw [if_neg h]
    simp only [shouldAddOneSample, boolToInt, h, decide_False]
    exact h0

/-- The sum on line 67 stays below `2^64`. -/
theorem sum_lt_SIZE_T_MOD (c : EpochConfiguration)
    (hT : c.m_totalEpochSizeInSamples < 2 ^ 64) (hW : c.m_numberOfWorkers ≠ 0) :
    c.m_totalEpochSizeInSamples / c.m_numberOfWorkers + intToSizeT (shouldAddOneSample c)
      < 2 ^ 64 := by
  rw [intToSizeT_shouldAddOneSample]
  have hdiv : c.m_totalEpochSizeInSamples / c.m_numberOfWorkers ≤ c.m_totalEpochSizeInSamples :=
    Nat.div_le_self _ _
  split
  · rename_i h
    have hlt : intToSizeT (castToInt c.m_totalEpochSizeInSamples) % c.m_numberOfWorkers
        < c.m_numberOfWorkers := Nat.mod_lt _ (Nat.pos_of_ne_zero hW)
    have h2 : 2 ≤ c.m_numberOfWorkers := by omega
    have h3 : c.m_totalEpochSizeInSamples / c.m_numberOfWorkers
        ≤ c.m_totalEpochSizeInSamples / 2 := Nat.div_le_div_left h2 (by omega)
    omega
  · omega

theorem IsEndReached_sweeps {κ χ : Type} (g : Nat) (self : LocalTimelineRandomizerBase κ χ)
    (h : self.m_config.m_totalEpochSizeInSweeps ≠ g) :
    IsEndReached g self =
      some (decide (self.m_config.m_totalEpochSizeInSweeps = self.m_sweepIndex)) := by
  unfold IsEndReached
  rw [if_pos h]

theorem IsEndReached_samples {κ χ : Type} (g : Nat) (self : LocalTimelineRandomizerBase κ χ)
    (h : self.m_config.m_totalEpochSizeInSweeps = g) (hW : self.m_config.m_numberOfWorkers ≠ 0) :
    IsEndReached g self =
      some (decide (self.m_numberOfSamplesSeenSoFar ≥ localSampleLimit self.m_config)) := by
  unfold IsEndReached
  rw [if_neg (by simpa using h), if_neg hW]

theorem mem_endReachedAt {κ χ : Type} (g : Nat) (self : LocalTimelineRandomizerBase κ χ)
    (h : self.m_config.m_totalEpochSizeInSweeps = g) (hW : self.m_config.m_numberOfWorkers ≠ 0)
    (n : Nat) : n ∈ endReachedAt g self ↔ localSampleLimit self.m_config ≤ n := by
  unfold endReachedAt
  rw [Set.mem_setOf_eq,
    IsEndReached_samples g { self with m_numberOfSamplesSeenSoFar := n } h hW]
  simp

theorem isLeast_localSampleLimit {κ χ : Type} (g : Nat) (self : LocalTimelineRandomizerBase κ χ)
    (h : self.m_config.m_totalEpochSizeInSweeps = g) (hW : self.m_config.m_numberOfWorkers ≠ 0) :
    IsLeast (endReachedAt g self) (localSampleLimit self.m_config) := by
  constructor
  · exact (mem_endReachedAt g self h hW _).2 (le_refl _)
  · intro n hn
    exact (mem_endReachedAt g self h hW n).1 hn

theorem eq_localSampleLimit_of_isLeast {κ χ : Type} (g : Nat)
    (self : LocalTimelineRandomizerBase κ χ)
    (h : self.m_config.m_totalEpochSizeInSweeps = g) (hW : self.m_config.m_numberOfWorkers ≠ 0)
    {L : Nat} (hL : IsLeast (endReachedAt g self) L) : L = localSampleLimit self.m_config :=
  hL.unique (isLeast_localSampleLimit g self h hW)

/-! ## Sample-bounded epochs -/

/-- C1: the spec's scenario holds on the code (budget 10, 3 workers: rank 0
ends at 4 samples, ranks 1 and 2 at 3), but at the budget `2^31` with 7 workers
the claimed limit of rank 0 is `⌊2^31 / 7⌋ + 1 = 306783379` (because
`0 < 2^31 mod 7 = 2`), while `IsEndReached` already answers `true` at `306783378`
samples seen: the remainder is taken from the narrowed budget. -/
theorem IsEndReached_remainder_lost_at_two_pow_31 :
    (IsLeast (endReachedAt SIZE_MAX (mkBase ⟨3, 0, 10, SIZE_MAX⟩ 0 0)) 4 ∧
      IsLeast (endReachedAt SIZE_MAX (mkBase ⟨3, 1, 10, SIZE_MAX⟩ 0 0)) 3 ∧
      IsLeast (endReachedAt SIZE_MAX (mkBase ⟨3, 2, 10, SIZE_MAX⟩ 0 0)) 3) ∧
    (2 ^ 31 / 7 + (if 0 < 2 ^ 31 % 7 then 1 else 0) = 306783379 ∧
      IsEndReached SIZE_MAX (mkBase ⟨7, 0, 2 ^ 31, SIZE_MAX⟩ 0 306783378) = some true) := by
  refine ⟨⟨?_, ?_, ?_⟩, by decide, by decide⟩
  · exact isLeast_localSampleLimit SIZE_MAX (mkBase ⟨3, 0, 10, SIZE_MAX⟩ 0 0) rfl (by decide)
  · exact isLeast_localSampleLimit SIZE_MAX (mkBase ⟨3, 1, 10, SIZE_MAX⟩ 0 0) rfl (by decide)
  · exact isLeast_localSampleLimit SIZE_MAX (mkBase ⟨3, 2, 10, SIZE_MAX⟩ 0 0) rfl (by decide)

/-- C2: at the budget `2^31` with 7 workers every rank has the limit
`306783378` (the least samples-seen-so-far at which `IsEndReached` answers
`true`), and the seven limits sum to `2^31 - 2`, not to the budget. -/
theorem sampleLimits_sum_short_at_two_pow_31 :
    (∀ r : Fin 7,
      IsLeast (endReachedAt SIZE_MAX (mkBase ⟨7, r.val, 2 ^ 31, SIZE_MAX⟩ 0 0)) 306783378) ∧
    (Finset.univ.sum fun r : Fin 7 => localSampleLimit ⟨7, r.val, 2 ^ 31, SIZE_MAX⟩)
      = 2 ^ 31 - 2 := by
  have hl : ∀ r : Fin 7, localSampleLimit ⟨7, r.val, 2 ^ 31, SIZE_MAX⟩ = 306783378 := by
    decide
  constructor
  · intro r
    have h := isLeast_localSampleLimit SIZE_MAX (mkBase ⟨7, r.val, 2 ^ 31, SIZE_MAX⟩ 0 0) rfl
      (show (7 : Nat) ≠ 0 by decide)
    rw [← hl r]
    exact h
  · simp only [hl]
    decide

/-- C8: when the worker rank is below the worker count and the budget is a
64-bit value, `IsEndReached` returns a result (no division or modulo by zero is
reached: the worker count is not zero), and the sum on line 67 stays below
`2^64`, whatever the sweep setting, the sweep index and the samples seen. -/
theorem IsEndReached_total {κ χ : Type} (g : Nat) (self : LocalTimelineRandomizerBase κ χ)
    (hr : self.m_config.m_workerRank < self.m_config.m_numberOfWorkers)
    (hT : self.m_config.m_totalEpochSizeInSamples < 2 ^ 64) :
    (∃ b, IsEndReached g self = some b) ∧
    self.m_config.m_numberOfWorkers ≠ 0 ∧
    self.m_config.m_totalEpochSizeInSamples / self.m_config.m_numberOfWorkers
      + intToSizeT (shouldAddOneSample self.m_config) < 2 ^ 64 := by
  have hW0 : self.m_config.m_numberOfWorkers ≠ 0 := by omega
  refine ⟨?_, hW0, sum_lt_SIZE_T_MOD self.m_config hT hW0⟩
  by_cases hS : self.m_config.m_totalEpochSizeInSweeps = g
  · exact ⟨_, IsEndReached_samples g self hS hW0⟩
  · exact ⟨_, IsEndReached_sweeps g self hS⟩

theorem IsEndReached_total_witness :
    (∃ b, IsEndReached SIZE_MAX (mkBase ⟨1, 0, 2 ^ 64 - 1, SIZE_MAX⟩ 0 0) = some b) ∧
    (mkBase ⟨1, 0, 2 ^ 64 - 1, SIZE_MAX⟩ 0 0).m_config.m_numberOfWorkers ≠ 0 ∧
    (2 ^ 64 - 1) / 1 + intToSizeT (shouldAddOneSample ⟨1, 0, 2 ^ 64 - 1, SIZE_MAX⟩) < 2 ^ 64 :=
  IsEndReached_total SIZE_MAX (mkBase ⟨1, 0, 2 ^ 64 - 1, SIZE_MAX⟩ 0 0) (by decide) (by decide)

/-- C3: in a sweep-bounded epoch (sweep count `S` different from the infinity
constant), whatever the other fields are, `IsEndReached` answers `false` at
every sweep index `i < S` and `true` at sweep index `S`; `S` is the least sweep
index at which it answers `true`. -/
theorem IsEndReached_sweepBounded {κ χ : Type} (g : Nat)
    (self : LocalTimelineRandomizerBase κ χ)
    (hS : self.m_config.m_totalEpochSizeInSweeps ≠ g) :
    (∀ i, i < self.m_config.m_totalEpochSizeInSweeps →
      IsEndReached g { self with m_sweepIndex := i } = some false) ∧
    IsEndReached g { self with m_sweepIndex := self.m_config.m_totalEpochSizeInSweeps }
      = some true ∧
    IsLeast {i | IsEndReached g { self with m_sweepIndex := i } = some true}
      self.m_config.m_totalEpochSizeInSweeps := by
  have key : ∀ i, IsEndReached g { self with m_sweepIndex := i }
      = some (decide (self.m_config.m_totalEpochSizeInSweeps = i)) :=
    fun i => IsEndReached_sweeps g { self with m_sweepIndex := i } hS
  refine ⟨?_, ?_, ?_, ?_⟩
  · intro i hi
    rw [key i]
    have hne : self.m_config.m_totalEpochSizeInSweeps ≠ i := by omega
    simp [hne]
  · rw [key]
    simp
  · show IsEndReached g { self with m_sweepIndex := self.m_config.m_totalEpochSizeInSweeps }
      = some true
    rw [key]
    simp
  · intro i hi
    have hi2 : IsEndReached g { self with m_sweepIndex := i } = some true := hi
    rw [key i] at hi2
    have heq : self.m_config.m_totalEpochSizeInSweeps = i := by simpa using hi2
    omega

theorem IsEndReached_sweepBounded_witness :
    IsEndReached SIZE_MAX (mkBase ⟨0, 5, 10, 2⟩ 0 7) = some false ∧
    IsEndReached SIZE_MAX (mkBase ⟨0, 5, 10, 2⟩ 1 7) = some false ∧
    IsEndReached SIZE_MAX (mkBase ⟨0, 5, 10, 2⟩ 2 7) = some true :=
  ⟨(IsEndReached_sweepBounded SIZE_MAX (mkBase ⟨0, 5, 10, 2⟩ 0 7) (by decide)).1 0 (by decide),
    (IsEndReached_sweepBounded SIZE_MAX (mkBase ⟨0, 5, 10, 2⟩ 0 7) (by decide)).1 1 (by decide),
    (IsEndReached_sweepBounded SIZE_MAX (mkBase ⟨0, 5, 10, 2⟩ 0 7) (by decide)).2.1⟩

/-- C9, as stated, fails: with a configured sweep count of 1 and the sweep
index 2 (beyond the count) `IsEndReached` answers `false`. -/
theorem IsEndReached_false_beyond_sweep_count :
    (1 ≠ SIZE_MAX ∧ 2 ≥ 1) ∧
    IsEndReached SIZE_MAX (mkBase ⟨1, 0, 0, 1⟩ 2 0) = some false := by
  decide

/-- C9, amended: in a sweep-bounded epoch with sweep count `S`, among the sweep
indices `i ≥ S` `IsEndReached` answers `true` at `i = S` only, and `false` at
every `i > S`. -/
theorem IsEndReached_sweep_index_ge {κ χ : Type} (g : Nat)
    (self : LocalTimelineRandomizerBase κ χ)
    (hS : self.m_config.m_totalEpochSizeInSweeps ≠ g) (i : Nat) :
    (i ≥ self.m_config.m_totalEpochSizeInSweeps →
      IsEndReached g { self with m_sweepIndex := i }
        = some (decide (i = self.m_config.m_totalEpochSizeInSweeps))) ∧
    (i > self.m_config.m_totalEpochSizeInSweeps →
      IsEndReached g { self with m_sweepIndex := i } = some false) := by
  have key : IsEndReached g { self with m_sweepIndex := i }
      = some (decide (self.m_config.m_totalEpochSizeInSweeps = i)) :=
    IsEndReached_sweeps g { self with m_sweepIndex := i } hS
  constructor
  · intro _
    rw [key]
    simp only [eq_comm]
  · intro hgt
    rw [key]
    have hne : self.m_config.m_totalEpochSizeInSweeps ≠ i := by omega
    simp [hne]

theorem IsEndReached_sweep_index_ge_witness :
    IsEndReached SIZE_MAX (mkBase ⟨1, 0, 0, 3⟩ 3 0) = some true ∧
    IsEndReached SIZE_MAX (mkBase ⟨1, 0, 0, 3⟩ 4 0) = some false :=
  ⟨(IsEndReached_sweep_index_ge SIZE_MAX (mkBase ⟨1, 0, 0, 3⟩ 0 0) (by decide) 3).1
      (by decide),
    (IsEndReached_sweep_index_ge SIZE_MAX (mkBase ⟨1, 0, 0, 3⟩ 0 0) (by decide) 4).2
      (by decide)⟩

/-! ## End-of-sweep marker -/

/-- C6: `IsEndOfSweep` answers `true` exactly for the descriptors that agree
with the sentinel on index-within-chunk, chunk id and number of samples, and
`false` as soon as one of the three differs; the sentinel itself is a marker;
the remaining component of the descriptor (and of the sentinel) has no
influence. -/
theorem IsEndOfSweep_iff_three_fields {κ : Type} (e s : SequenceInfo κ) (k : κ) :
    (IsEndOfSweep e s = true ↔
      s.m_indexInChunk = e.m_indexInChunk ∧ s.m_chunkId = e.m_chunkId ∧
        s.m_numberOfSamples = e.m_numberOfSamples) ∧
    (IsEndOfSweep e s = false ↔
      s.m_indexInChunk ≠ e.m_indexInChunk ∨ s.m_chunkId ≠ e.m_chunkId ∨
        s.m_numberOfSamples ≠ e.m_numberOfSamples) ∧
    IsEndOfSweep e e = true ∧
    IsEndOfSweep e { s with m_key := k } = IsEndOfSweep e s ∧
    IsEndOfSweep { e with m_key := k } s = IsEndOfSweep e s := by
  refine ⟨?_, ?_, ?_, rfl, rfl⟩
  · simp [IsEndOfSweep, and_assoc]
  · rw [← Bool.not_eq_true]
    simp only [IsEndOfSweep, Bool.and_eq_true, decide_eq_true_eq]
    constructor
    · intro h
      by_contra hc
      push_neg at hc
      exact h ⟨⟨hc.1, hc.2.1⟩, hc.2.2⟩
    · rintro (h | h | h) ⟨⟨h1, h2⟩, h3⟩
      · exact h h1
      · exact h h2
      · exact h h3
  · simp [IsEndOfSweep]

/-! ## Checkpoint lookup -/

end CNTK
